import Mathlib

/-!
# Verification of the WNTR fork: results layer and network model

This development gives a shallow embedding of the two source files of the
repository and proves properties of it.

* `src/wntr/sim/results.py` — the `SimulationResults` class: elementwise
  arithmetic between result sets and the in-place time-splice
  `append_results_from`.  These definitions are translated directly from
  that file.
* The `epanetlib` water network model (`WaterNetworkModel`) is exercised by
  `src/epanetlib/tests/test_network.py` but its implementation is not among
  the source files; the corresponding definitions below are modelled from
  the specification and are marked as such in their doc comments.

Modelling conventions:

* A pandas `Series` is a list of (integer time index, value) rows in order.
* A float value is modelled as `Option ℚ`: `none` stands for a
  non-finite value (NaN, or ±inf produced by a zero divisor); `some q`
  stands for the finite value `q`.
* Python dicts are association lists in insertion order; `List.lookup`
  is dict access.
* Exceptions are modelled with `Except String`; the string records the
  kind of the Python exception raised.
-/

set_option autoImplicit false

namespace WntrSpec

/-- A float cell of a pandas Series: `none` models NaN (and other non-finite
values such as the infinities produced by a zero divisor). -/
abbrev Val := Option ℚ

/-- A pandas Series: rows of (time index, value) in storage order. -/
abbrev Series := List (Int × Val)

/-- A Python dict mapping result keys (e.g. "head", "flowrate") to Series,
in insertion order. -/
abbrev RDict := List (String × Series)

/-- `series.index`: the list of time labels of a Series. -/
def seriesIndex (s : Series) : List Int := s.map Prod.fst

/-- Label-based access `s[t]` used by pandas alignment: the value at time
label `t`, or NaN (`none`) when the label is absent. -/
def seriesGet (s : Series) (t : Int) : Val :=
  match s.find? (fun tv => tv.1 == t) with
  | some tv => tv.2
  | none => none

/-- Insert an integer into a sorted list, skipping duplicates. -/
def insertSorted (x : Int) : List Int → List Int
  | [] => [x]
  | y :: ys =>
    if x < y then x :: y :: ys
    else if x = y then y :: ys
    else y :: insertSorted x ys

/-- Sort a list of time labels ascending, removing duplicates. -/
def sortedDedup : List Int → List Int
  | [] => []
  | x :: xs => insertSorted x (sortedDedup xs)

/-- pandas index alignment for a binary Series operation: identical indexes
are kept as they are, otherwise the (sorted, deduplicated) union of the two
indexes is used. -/
def alignIndex (s1 s2 : Series) : List Int :=
  if seriesIndex s1 = seriesIndex s2 then seriesIndex s1
  else sortedDedup (seriesIndex s1 ++ seriesIndex s2)

/-- Float addition: NaN propagates. -/
def valAdd : Val → Val → Val
  | some a, some b => some (a + b)
  | _, _ => none

/-- Float subtraction: NaN propagates. -/
def valSub : Val → Val → Val
  | some a, some b => some (a - b)
  | _, _ => none

/-- Float division: NaN propagates; a zero divisor yields a non-finite
result (NaN or ±inf in pandas), modelled as `none`. -/
def valDiv : Val → Val → Val
  | some a, some b => if b = 0 then none else some (a / b)
  | _, _ => none

/-- Division of a float cell by a Python int. -/
def valDivInt (v : Val) (n : Int) : Val :=
  match v with
  | some a => if n = 0 then none else some (a / (n : ℚ))
  | none => none

/-- A pandas binary Series operation (`s1 + s2`, `s1 - s2`, `s1 / s2`):
align the two indexes and combine the values label by label, with NaN for
labels missing on one side. -/
def seriesBinOp (f : Val → Val → Val) (s1 s2 : Series) : Series :=
  (alignIndex s1 s2).map (fun t => (t, f (seriesGet s1 t) (seriesGet s2 t)))

/-- `s / n` for a Python int `n`: divide every value. -/
def seriesScalarDiv (s : Series) (n : Int) : Series :=
  s.map (fun tv => (tv.1, valDivInt tv.2 n))

/-- The dict-building loop shared by `__add__`, `__sub__` and the
results/results branch of `__truediv__` in `src/wntr/sim/results.py`:
`for key in self.d.keys(): if key in other.d: new.d[key] = f(self.d[key], other.d[key])`. -/
def dictInterCombine (f : Series → Series → Series) (d e : RDict) : RDict :=
  d.filterMap (fun kv => (List.lookup kv.1 e).map (fun s2 => (kv.1, f kv.2 s2)))

/-- `wntr.sim.results.SimulationResults`: timestamp, network name and the
two dicts of time-indexed series.  `network_name` is `None` at construction
(printed as "None" when formatted); a fresh object's timestamp is the
current wall-clock time, modelled as the empty string. -/
structure SimulationResults where
  network_name : String := "None"
  timestamp : String := ""
  link : RDict := []
  node : RDict := []
  deriving DecidableEq, Repr

/-- A Python value appearing as the right operand of a `SimulationResults`
operator: another results object, an int, or any other object. -/
inductive PyVal where
  | results (r : SimulationResults)
  | intVal (n : Int)
  | objVal
  deriving DecidableEq

/-- Message of the `ValueError` raised by `__add__`/`__sub__`/
`append_results_from` on a non-`SimulationResults` operand. -/
def typeErrBoth : String :=
  "operating on a results object requires both be SimulationResults"

/-- Message of the `ValueError` raised by `__truediv__` on a divisor that is
neither a `SimulationResults` nor an int. -/
def typeErrDiv : String :=
  "operating on a results object requires divisor be a SimulationResults or a float"

/-- A Python `KeyError` on dict access. -/
def keyError (k : String) : String := "KeyError: " ++ k

/-- The format-string network name of a binary result, e.g.
`"A[tsA] + B[tsB]"`. -/
def fmtBin (op : String) (a b : SimulationResults) : String :=
  a.network_name ++ "[" ++ a.timestamp ++ "] " ++ op ++ " " ++
    b.network_name ++ "[" ++ b.timestamp ++ "]"

/-- `SimulationResults.__add__`: requires the operand to be a
`SimulationResults` (else `ValueError`); combines, for every key of `self`
that is also in `other`, the two series elementwise. -/
def SimulationResults.add (self : SimulationResults) (other : PyVal) :
    Except String SimulationResults :=
  match other with
  | .results o =>
    .ok { network_name := fmtBin "+" self o,
          timestamp := "",
          link := dictInterCombine (seriesBinOp valAdd) self.link o.link,
          node := dictInterCombine (seriesBinOp valAdd) self.node o.node }
  | _ => .error typeErrBoth

/-- `SimulationResults.__sub__`: same shape as `__add__` with subtraction. -/
def SimulationResults.sub (self : SimulationResults) (other : PyVal) :
    Except String SimulationResults :=
  match other with
  | .results o =>
    .ok { network_name := fmtBin "-" self o,
          timestamp := "",
          link := dictInterCombine (seriesBinOp valSub) self.link o.link,
          node := dictInterCombine (seriesBinOp valSub) self.node o.node }
  | _ => .error typeErrBoth

/-- `SimulationResults.__truediv__`: a `SimulationResults` divisor gives the
keywise elementwise quotient; an int divisor scales every series; anything
else raises `ValueError`. -/
def SimulationResults.truediv (self : SimulationResults) (other : PyVal) :
    Except String SimulationResults :=
  match other with
  | .results o =>
    .ok { network_name := fmtBin "/" self o,
          timestamp := "",
          link := dictInterCombine (seriesBinOp valDiv) self.link o.link,
          node := dictInterCombine (seriesBinOp valDiv) self.node o.node }
  | .intVal n =>
    .ok { network_name := self.network_name ++ "[" ++ self.timestamp ++ "] / " ++ toString n,
          timestamp := "",
          link := self.link.map (fun kv => (kv.1, seriesScalarDiv kv.2 n)),
          node := self.node.map (fun kv => (kv.1, seriesScalarDiv kv.2 n)) }
  | .objVal => .error typeErrDiv

/-- The `AttributeError` raised by evaluating `pd.nan` in
`append_results_from`: the pandas module has no attribute `nan` (the
surrounding code imports numpy as `np`; the placeholder was evidently meant
to be `np.nan`), so each branch that builds an "undefined" placeholder for
a key present on one side only raises instead of producing a NaN series. -/
def pdNanError : String := "AttributeError: module pandas has no attribute nan"

/-- `IndexError` from `other.node['head'].index.values[0]` on an empty
head series. -/
def emptyHeadError : String := "IndexError: index 0 is out of bounds"

/-- `IndexError` raised by `.loc[keep]` when the boolean mask length does
not match the series length. -/
def maskLenError : String := "IndexError: Boolean index has wrong length"

/-- `series.loc[keep]` for a positional boolean mask `keep`: keeps the rows
at the `true` positions; pandas raises `IndexError` when the mask length
differs from the series length. -/
def locMask (s : Series) (mask : List Bool) : Except String Series :=
  if s.length = mask.length then
    .ok ((s.zip mask).filterMap (fun p => if p.2 then some p.1 else none))
  else .error maskLenError

/-- First pair of loops of `append_results_from` (run once for `link` with
placeholder key "flowrate" and once for `node` with placeholder key
"head"): for every key of `self`, if the key is also in `other` the stored
series becomes the kept rows of `self` followed by all rows of `other`;
otherwise the code evaluates `other.d[placeholderKey] * pd.nan`, which
raises `KeyError` if the placeholder key is absent from `other` and
`AttributeError` otherwise, because `pd.nan` does not exist. -/
def mergeKeep (keep : List Bool) (placeholderKey : String) :
    RDict → RDict → Except String RDict
  | [], _ => .ok []
  | kv :: tl, otherd =>
    match List.lookup kv.1 otherd with
    | some os => do
      let pre ← locMask kv.2 keep
      let rest ← mergeKeep keep placeholderKey tl otherd
      pure ((kv.1, pre ++ os) :: rest)
    | none =>
      match List.lookup placeholderKey otherd with
      | some _ => .error pdNanError
      | none => .error (keyError placeholderKey)

/-- Second pair of loops of `append_results_from`: for every key of `other`
missing from (the already merged) `self`, the code evaluates
`self.d[placeholderKey] * pd.nan`, which raises `KeyError` if the
placeholder key is absent and `AttributeError` otherwise; when every key of
`other` is already present the dict is returned unchanged. -/
def addMissing (placeholderKey : String) (selfd : RDict) :
    RDict → Except String RDict
  | [] => .ok selfd
  | kv :: tl =>
    if (List.lookup kv.1 selfd).isSome then addMissing placeholderKey selfd tl
    else
      match List.lookup placeholderKey selfd with
      | some _ => Except.error pdNanError
      | none => Except.error (keyError placeholderKey)

/-- `SimulationResults.append_results_from`: in-place splice of `other`
onto `self` (the updated object is returned).  The cut time is the first
index value of `other.node['head']`; the rows of `self` kept are those
whose position in `self.node['head']`'s index carries a time strictly below
the cut; every series of `other` is appended whole. -/
def SimulationResults.append_results_from (self : SimulationResults)
    (other : PyVal) : Except String SimulationResults :=
  match other with
  | .results o =>
    match List.lookup "head" o.node with
    | none => .error (keyError "head")
    | some ohead =>
      match (seriesIndex ohead).head? with
      | none => .error emptyHeadError
      | some start_time =>
        match List.lookup "head" self.node with
        | none => .error (keyError "head")
        | some shead => do
          let keep := (seriesIndex shead).map (fun t => decide (t < start_time))
          let link1 ← mergeKeep keep "flowrate" self.link o.link
          let link2 ← addMissing "flowrate" link1 o.link
          let node1 ← mergeKeep keep "head" self.node o.node
          let node2 ← addMissing "head" node1 o.node
          pure { self with link := link2, node := node2 }
  | _ => .error typeErrBoth

/-!
## The epanetlib water network model

The implementation (`epanetlib.network.WaterNetworkModel`) is not among
the repository's source files; only its test suite
(`src/epanetlib/tests/test_network.py`) is.  Everything below is modelled
from the specification (data model §3, element registry §4.1, curve store
§4.2, topology graph §4.3, pump curve solver §4.4, facade §4.5), using the
tests only to fix observable names and argument orders.
-/

/-- Modelled from the spec: a numeric argument as supplied by a caller of
the network model, which may be a Python int or a Python float; the model
coerces it to floating point at the boundary. -/
inductive PyNum where
  | intNum (n : Int)
  | floatNum (q : ℚ)
  deriving DecidableEq, Repr

/-- Modelled from the spec: a stored floating-point attribute value.  The
wrapper records that the `float(...)` coercion was applied; exact rationals
stand in for IEEE floats (every attribute in the claims is representable
exactly). -/
structure PyFloat where
  val : ℚ
  deriving DecidableEq, Repr

/-- Modelled from the spec: the boundary coercion of every numeric
attribute to floating point, regardless of the caller's numeric type. -/
def PyNum.toFloat : PyNum → PyFloat
  | .intNum n => ⟨(n : ℚ)⟩
  | .floatNum q => ⟨q⟩

/-- Modelled from the spec (§3): a junction node. -/
structure Junction where
  name : String
  base_demand : PyFloat
  demand_pattern_name : Option String
  elevation : PyFloat
  deriving DecidableEq, Repr

/-- Modelled from the spec (§3): a tank node. -/
structure Tank where
  name : String
  elevation : PyFloat
  init_level : PyFloat
  min_level : PyFloat
  max_level : PyFloat
  diameter : PyFloat
  min_vol : PyFloat
  deriving DecidableEq, Repr

/-- Modelled from the spec (§3): a reservoir node. -/
structure Reservoir where
  name : String
  base_head : PyFloat
  head_pattern_name : Option String
  deriving DecidableEq, Repr

/-- Modelled from the spec (§3): the tagged node variants. -/
inductive NetNode where
  | junction (j : Junction)
  | tank (t : Tank)
  | reservoir (r : Reservoir)
  deriving DecidableEq, Repr

/-- Modelled from the spec (§3): a pipe link; `base_status` is stored
normalized to upper case, one of OPEN/CLOSED/CV. -/
structure Pipe where
  link_name : String
  start_node : String
  end_node : String
  length : PyFloat
  diameter : PyFloat
  roughness : PyFloat
  minor_loss : PyFloat
  base_status : String
  deriving DecidableEq, Repr

/-- Modelled from the spec (§3, §4.4): a pump link; `coeffs` holds the
head-curve coefficients (a, b, c) once the solver has run.  The 3-point
numerical branch of the solver is not modelled (see `add_pump`), so
`coeffs` is `none` for such pumps and for constant-power pumps. -/
structure Pump where
  link_name : String
  start_node : String
  end_node : String
  curve_name : String
  coeffs : Option (ℚ × ℚ × ℚ)
  deriving DecidableEq, Repr

/-- Modelled from the spec (§3): a valve link. -/
structure Valve where
  link_name : String
  start_node : String
  end_node : String
  valve_type : String
  setting : PyFloat
  deriving DecidableEq, Repr

/-- Modelled from the spec (§3): the tagged link variants. -/
inductive NetLink where
  | pipe (p : Pipe)
  | pump (p : Pump)
  | valve (v : Valve)
  deriving DecidableEq, Repr

/-- Modelled from the spec (§3): a link's start node. -/
def NetLink.start_node : NetLink → String
  | .pipe p => p.start_node
  | .pump p => p.start_node
  | .valve v => v.start_node

/-- Modelled from the spec (§3): a link's end node. -/
def NetLink.end_node : NetLink → String
  | .pipe p => p.end_node
  | .pump p => p.end_node
  | .valve v => v.end_node

/-- Modelled from the spec (§4.2): a named, typed, ordered point curve. -/
structure Curve where
  name : String
  curve_type : String
  points : List (ℚ × ℚ)
  deriving DecidableEq, Repr

/-- Modelled from the spec (§3): the network model: typed registries,
per-type counts, check-valve name set, and the directed topology graph,
whose edges carry (start node, end node, link name). -/
structure WaterNetworkModel where
  nodes : List (String × NetNode) := []
  links : List (String × NetLink) := []
  curves : List (String × Curve) := []
  num_junctions : Nat := 0
  num_tanks : Nat := 0
  num_reservoirs : Nat := 0
  num_pipes : Nat := 0
  num_pumps : Nat := 0
  num_valves : Nat := 0
  check_valves : List String := []
  graph_node_list : List String := []
  graph_edges : List (String × String × String) := []
  deriving DecidableEq, Repr

/-- Modelled from the spec (§7): `DuplicateNameError`. -/
def duplicateNameError : String := "DuplicateNameError"

/-- Modelled from the spec (§7): `NotFoundError`. -/
def notFoundError : String := "NotFoundError"

/-- Modelled from the spec (§7): `UnsupportedCurveShapeError`. -/
def unsupportedCurveShapeError : String := "UnsupportedCurveShapeError"

/-- Modelled from the spec (§4.1, §4.3, §4.5): `add_junction(name, demand,
pattern, elevation)` — fails on a duplicate node name, coerces the numeric
attributes to float, registers the junction, bumps the junction count and
inserts `name` into the topology graph as a vertex with no edges. -/
def add_junction (wn : WaterNetworkModel) (name : String) (demand : PyNum)
    (pattern : Option String) (elevation : PyNum) :
    Except String WaterNetworkModel :=
  if (List.lookup name wn.nodes).isSome then .error duplicateNameError
  else
    .ok { wn with
      nodes := wn.nodes ++ [(name, .junction
        { name := name, base_demand := demand.toFloat,
          demand_pattern_name := pattern, elevation := elevation.toFloat })],
      num_junctions := wn.num_junctions + 1,
      graph_node_list := wn.graph_node_list ++ [name] }

/-- Modelled from the spec (§4.1): `get_node(name)` — `NotFoundError`
when absent. -/
def get_node (wn : WaterNetworkModel) (name : String) :
    Except String NetNode :=
  match List.lookup name wn.nodes with
  | some n => .ok n
  | none => .error notFoundError

/-- Modelled from the spec (§4.1): `get_link(name)` — `NotFoundError`
when absent. -/
def get_link (wn : WaterNetworkModel) (name : String) :
    Except String NetLink :=
  match List.lookup name wn.links with
  | some l => .ok l
  | none => .error notFoundError

/-- Modelled from the spec (§4.2): `add_curve(name, type, points)` —
stored verbatim, order preserving. -/
def add_curve (wn : WaterNetworkModel) (name curve_type : String)
    (points : List (ℚ × ℚ)) : Except String WaterNetworkModel :=
  if (List.lookup name wn.curves).isSome then .error duplicateNameError
  else
    .ok { wn with curves := wn.curves ++
      [(name, { name := name, curve_type := curve_type, points := points })] }

/-- Modelled from the spec (§4.2): `get_curve(name)`. -/
def get_curve (wn : WaterNetworkModel) (name : String) :
    Except String Curve :=
  match List.lookup name wn.curves with
  | some c => .ok c
  | none => .error notFoundError

/-- ASCII upper-casing of one character (Python `str.upper` restricted to
the ASCII status strings the model receives). -/
def charUpper (ch : Char) : Char :=
  if ch.isLower then Char.ofNat (ch.toNat - 32) else ch

/-- ASCII upper-casing of a status string. -/
def strUpper (s : String) : String := String.mk (s.data.map charUpper)

/-- Modelled from the spec (§4.5): `add_pipe` — normalizes the status case
insensitively; a CV pipe is additionally registered in the check-valve set;
one directed graph edge (start → end) is inserted. -/
def add_pipe (wn : WaterNetworkModel) (name start_name end_name : String)
    (length diameter roughness minor_loss : PyNum) (status : String) :
    Except String WaterNetworkModel :=
  if (List.lookup name wn.links).isSome then .error duplicateNameError
  else
    let st := strUpper status
    .ok { wn with
      links := wn.links ++ [(name, .pipe
        { link_name := name, start_node := start_name, end_node := end_name,
          length := length.toFloat, diameter := diameter.toFloat,
          roughness := roughness.toFloat, minor_loss := minor_loss.toFloat,
          base_status := st })],
      num_pipes := wn.num_pipes + 1,
      check_valves :=
        if st = "CV" then wn.check_valves ++ [name] else wn.check_valves
      graph_edges := wn.graph_edges ++ [(start_name, end_name, name)] }

/-- Modelled from the spec (§4.5): `remove_pipe(name)` — deletes the pipe,
removes it from the check-valve set unconditionally, removes the
corresponding graph edge and decrements the pipe count; `NotFoundError`
when no pipe of that name is registered. -/
def remove_pipe (wn : WaterNetworkModel) (name : String) :
    Except String WaterNetworkModel :=
  match List.lookup name wn.links with
  | some (.pipe _) =>
    .ok { wn with
      links := wn.links.filter (fun kv => kv.1 ≠ name),
      num_pipes := wn.num_pipes - 1,
      check_valves := wn.check_valves.filter (fun n => n ≠ name),
      graph_edges := wn.graph_edges.filter (fun e => e.2.2 ≠ name) }
  | _ => .error notFoundError

/-- Modelled from the spec (§4.4, 1-point case): the head-curve solver for
a single-point HEAD curve (q₂, h₂).  The synthesized three-point shape is
(0, 4/3·h₂), (q₂, h₂), (2·q₂, 0); solving `h = a − b·qᶜ` through these in
closed form gives `a = 4/3·h₂`, the exponent relation
`2ᶜ = a / (a − h₂) = 4`, hence `c = 2` exactly, and `b = (a − h₂)/q₂ᶜ`. -/
def solve1ptHeadCurve (q2 h2 : ℚ) : ℚ × ℚ × ℚ :=
  let a := 4 / 3 * h2
  let c : ℚ := 2
  let b := (a - h2) / q2 ^ 2
  (a, b, c)

/-- Modelled from the spec (§4.4, §4.5): `add_pump(name, start, end,
curve_info, curve)` — for a HEAD curve the solver runs at once and the
coefficients are stored on the pump; a 1-point curve is solved in closed
form; a point count outside {1, 3} fails with
`UnsupportedCurveShapeError`.  The 3-point branch is a floating-point
numerical root-finder (`scipy.optimize.fsolve`) and is not modelled: the
pump is registered with `coeffs = none`. -/
def add_pump (wn : WaterNetworkModel) (name start_name end_name : String)
    (curve_info : String) (curve : Curve) : Except String WaterNetworkModel :=
  if (List.lookup name wn.links).isSome then .error duplicateNameError
  else
    let mk : Option (ℚ × ℚ × ℚ) → WaterNetworkModel := fun co =>
      { wn with
        links := wn.links ++ [(name, .pump
          { link_name := name, start_node := start_name, end_node := end_name,
            curve_name := curve.name, coeffs := co })],
        num_pumps := wn.num_pumps + 1,
        graph_edges := wn.graph_edges ++ [(start_name, end_name, name)] }
    if curve_info = "HEAD" then
      match curve.points with
      | [(q2, h2)] => .ok (mk (some (solve1ptHeadCurve q2 h2)))
      | [_, _, _] => .ok (mk none)
      | _ => .error unsupportedCurveShapeError
    else .ok (mk none)

/-- Modelled from the spec (§4.3): `get_links_for_node(name)` — the names
of the links incident to `name` in either direction, read off the topology
graph (order unspecified; this model returns them in edge-insertion
order). -/
def get_links_for_node (wn : WaterNetworkModel) (name : String) :
    List String :=
  wn.graph_edges.filterMap (fun e =>
    if e.1 = name ∨ e.2.1 = name then some e.2.2 else none)

/-- Modelled from the spec (§3): the registered pipe names whose stored
status is CV, in registry order. -/
def cvPipeNames (links : List (String × NetLink)) : List String :=
  links.filterMap (fun kv =>
    match kv.2 with
    | .pipe p => if p.base_status = "CV" then some kv.1 else none
    | _ => none)

/-- Modelled from the spec (§3): the check-valve invariant — the
check-valve set equals exactly the set of registered pipe names whose
status is CV. -/
def CheckValveInv (wn : WaterNetworkModel) : Prop :=
  wn.check_valves = cvPipeNames wn.links

/-- Modelled from the spec (§3): the topology-graph invariant — the
directed edge set (with its link-name labels) mirrors the link registry. -/
def GraphLinksConsistent (wn : WaterNetworkModel) : Prop :=
  wn.graph_edges = wn.links.map (fun kv => (kv.2.start_node, kv.2.end_node, kv.1))

/-- Modelled from the spec (§3): every graph edge endpoint is a registered
node (graph and registries never diverge). -/
def GraphNodesConsistent (wn : WaterNetworkModel) : Prop :=
  ∀ e ∈ wn.graph_edges,
    (List.lookup e.1 wn.nodes).isSome ∧ (List.lookup e.2.1 wn.nodes).isSome

/-- A freshly constructed, empty `WaterNetworkModel`. -/
def emptyWNM : WaterNetworkModel := {}

/-- The residual `h − a + b·qᶜ` of one head-curve point, with the exponent
`c` interpreted as the rational coefficient returned by the solver; the
power is defined when `c` is a non-negative integer (the closed-form
1-point solution always has `c = 2`), and the residual is undefined
otherwise. -/
def headResidual (a b c h q : ℚ) : Option ℚ :=
  if c.den = 1 ∧ 0 ≤ c.num then some (h - a + b * q ^ c.num.toNat) else none

/-- The dict-level behaviour of the binary operators: a key maps to the
elementwise combination of the two stored series when it is present in
both operands, and is absent from the result otherwise. -/
def mergedDictSpec (f : Val → Val → Val) (dA dB dC : RDict) : Prop :=
  ∀ k, List.lookup k dC =
    match List.lookup k dA, List.lookup k dB with
    | some sa, some sb => some (seriesBinOp f sa sb)
    | some _, none => none
    | none, _ => none

/-- The dict-level behaviour of a successful `append_results_from` at cut
time `cut`: every key present in both dicts holds the rows of the first
operand at times strictly below the cut, followed by all rows of the
second operand, and the merged time index has no duplicates. -/
def SpliceSpec (cut : Int) (dA dB dAfter : RDict) : Prop :=
  ∀ k sa sb, List.lookup k dA = some sa → List.lookup k dB = some sb →
    List.lookup k dAfter =
      some (sa.filter (fun tv => decide (tv.1 < cut)) ++ sb) ∧
    (seriesIndex (sa.filter (fun tv => decide (tv.1 < cut)) ++ sb)).Nodup

/-!
## Concrete result sets used to instantiate the theorems

`wA1` covers times 0–75 and `wB1` covers times 50–100, with matching key
sets, mirroring the spec's `[0,100)` / `[50,150)` splice example.  `wA2`
and `wB2` add a `velocity` series on one side only.
-/

/-- A result set covering times 0, 25, 50, 75. -/
def wA1 : SimulationResults :=
  { network_name := "A", timestamp := "tA",
    link := [("flowrate", [(0, some 1), (25, some 2), (50, some 3), (75, some 4)])],
    node := [("head", [(0, some 10), (25, some 11), (50, some 12), (75, some 13)])] }

/-- A subsequent result set covering times 50, 100. -/
def wB1 : SimulationResults :=
  { network_name := "B", timestamp := "tB",
    link := [("flowrate", [(50, some 5), (100, some 6)])],
    node := [("head", [(50, some 20), (100, some 21)])] }

/-- The expected splice of `wB1` onto `wA1`. -/
def wAB1 : SimulationResults :=
  { network_name := "A", timestamp := "tA",
    link := [("flowrate", [(0, some 1), (25, some 2), (50, some 5), (100, some 6)])],
    node := [("head", [(0, some 10), (25, some 11), (50, some 20), (100, some 21)])] }

/-- `wA1` with an extra link series `velocity` absent from `wB1`. -/
def wA2 : SimulationResults :=
  { wA1 with link := wA1.link ++
      [("velocity", [(0, some 7), (25, some 7), (50, some 7), (75, some 7)])] }

/-- `wB1` with an extra link series `velocity` absent from `wA1`. -/
def wB2 : SimulationResults :=
  { wB1 with link := wB1.link ++ [("velocity", [(50, some 8), (100, some 8)])] }

/-- A result set whose node dict has no `head` entry. -/
def wNoHead : SimulationResults :=
  { network_name := "C", timestamp := "tC",
    link := [("flowrate", [(0, some 1)])],
    node := [("demand", [(0, some 2)])] }

/-!
## Concrete network models used to instantiate the theorems
-/

/-- A network holding two junctions j1 and j2, as produced by two
`add_junction` calls on an empty model. -/
def wnJ2 : WaterNetworkModel :=
  { nodes := [("j1", .junction ⟨"j1", ⟨0⟩, none, ⟨0⟩⟩),
              ("j2", .junction ⟨"j2", ⟨0⟩, none, ⟨0⟩⟩)],
    num_junctions := 2,
    graph_node_list := ["j1", "j2"] }

/-- `wnJ2` after `add_pipe('p1','j1','j2',1000,1,100,0,'cv')`. -/
def wnP1 : WaterNetworkModel :=
  { wnJ2 with
    links := [("p1", .pipe ⟨"p1", "j1", "j2", (PyNum.intNum 1000).toFloat,
      (PyNum.intNum 1).toFloat, (PyNum.intNum 100).toFloat,
      (PyNum.intNum 0).toFloat, "CV"⟩)],
    num_pipes := 1,
    check_valves := ["p1"],
    graph_edges := [("j1", "j2", "p1")] }

/-- The expected result of `add_junction('j1', 150, 'pattern1', 15)` on an
empty model. -/
def wnJ1 : WaterNetworkModel :=
  { nodes := [("j1", .junction ⟨"j1", (PyNum.intNum 150).toFloat,
      some "pattern1", (PyNum.intNum 15).toFloat⟩)],
    num_junctions := 1,
    graph_node_list := ["j1"] }

/-- The adjacency test network: junctions j1–j5 and pipes
p1:(j1,j2), p2:(j1,j4), p3:(j1,j5), p4:(j3,j2); the topology graph mirrors
the link registry. -/
def wn9 : WaterNetworkModel :=
  { nodes := ["j1", "j2", "j3", "j4", "j5"].map (fun n =>
      (n, .junction ⟨n, ⟨0⟩, none, ⟨0⟩⟩)),
    links := [("j1", "j2", "p1"), ("j1", "j4", "p2"),
              ("j1", "j5", "p3"), ("j3", "j2", "p4")].map (fun e =>
      (e.2.2, .pipe ⟨e.2.2, e.1, e.2.1, ⟨0⟩, ⟨0⟩, ⟨0⟩, ⟨0⟩, "OPEN"⟩)),
    num_junctions := 5,
    num_pipes := 4,
    graph_node_list := ["j1", "j2", "j3", "j4", "j5"],
    graph_edges := [("j1", "j2", "p1"), ("j1", "j4", "p2"),
                    ("j1", "j5", "p3"), ("j3", "j2", "p4")] }

/-- A one-point HEAD curve through (10, 20), as in the head-curve test. -/
def curve1pt : Curve :=
  { name := "curve1", curve_type := "HEAD", points := [(10, 20)] }

/-- `wnJ2` after `add_pump('p1','j1','j2','HEAD',curve1pt)`: the solved
coefficients of the 1-point curve (10, 20) are (80/3, 1/15, 2). -/
def wn5 : WaterNetworkModel :=
  { wnJ2 with
    links := [("p1", .pump ⟨"p1", "j1", "j2", "curve1",
      some (solve1ptHeadCurve 10 20)⟩)],
    num_pumps := 1,
    graph_edges := [("j1", "j2", "p1")] }

/-!
## Association-list lemmas
-/

theorem lookup_mem {α : Type} {β : Type} [BEq α] [LawfulBEq α] {k : α} {v : β} :
    ∀ {d : List (α × β)}, List.lookup k d = some v → (k, v) ∈ d := by
  intro d
  induction d with
  | nil => intro h; simp [List.lookup] at h
  | cons kv tl ih =>
    intro h
    cases kv with
    | mk k' v' =>
      rw [List.lookup_cons] at h
      by_cases hk : k = k'
      · subst hk
        simp only [beq_self_eq_true] at h
        cases h
        exact List.mem_cons_self _ _
      · have : (k == k') = false := beq_eq_false_iff_ne.mpr hk
        rw [this] at h
        exact List.mem_cons_of_mem _ (ih h)

theorem lookup_append_left {α : Type} {β : Type} [BEq α] [LawfulBEq α]
    {k : α} {v : β} {d e : List (α × β)} (h : List.lookup k d = some v) :
    List.lookup k (d ++ e) = some v := by
  induction d with
  | nil => simp [List.lookup] at h
  | cons kv tl ih =>
    cases kv with
    | mk k' v' =>
      rw [List.lookup_cons] at h
      rw [List.cons_append, List.lookup_cons]
      cases hbeq : (k == k') with
      | true => rw [hbeq] at h; exact h
      | false => rw [hbeq] at h; exact ih h

theorem lookup_append_of_none {α : Type} {β : Type} [BEq α] [LawfulBEq α]
    {k : α} {d : List (α × β)} (h : List.lookup k d = none) (e : List (α × β)) :
    List.lookup k (d ++ e) = List.lookup k e := by
  induction d with
  | nil => simp
  | cons kv tl ih =>
    cases kv with
    | mk k' v' =>
      rw [List.lookup_cons] at h
      rw [List.cons_append, List.lookup_cons]
      cases hbeq : (k == k') with
      | true => rw [hbeq] at h; cases h
      | false => rw [hbeq] at h; exact ih h

/-- Key-by-key description of the loop shared by the binary operators. -/
theorem lookup_dictInterCombine (f : Series → Series → Series) (d e : RDict)
    (k : String) :
    List.lookup k (dictInterCombine f d e) =
      match List.lookup k d, List.lookup k e with
      | some sa, some sb => some (f sa sb)
      | some _, none => none
      | none, _ => none := by
  induction d with
  | nil => simp [dictInterCombine]
  | cons kv tl ih =>
    cases kv with
    | mk k' s' =>
      by_cases hk : k = k'
      · subst hk
        cases he : List.lookup k e with
        | none =>
          simp only [dictInterCombine, List.filterMap_cons, he, Option.map_none'] at ih ⊢
          rw [ih, List.lookup_cons]
          simp only [beq_self_eq_true]
          cases List.lookup k tl <;> simp [he]
        | some sb =>
          simp only [dictInterCombine, List.filterMap_cons, he, Option.map_some'] at ih ⊢
          rw [List.lookup_cons, List.lookup_cons]
          simp [he]
      · have hbeq : (k == k') = false := beq_eq_false_iff_ne.mpr hk
        cases he : List.lookup k' e with
        | none =>
          simp only [dictInterCombine, List.filterMap_cons, he, Option.map_none'] at ih ⊢
          rw [ih, List.lookup_cons, hbeq]
        | some sb =>
          simp only [dictInterCombine, List.filterMap_cons, he, Option.map_some'] at ih ⊢
          rw [List.lookup_cons, List.lookup_cons, hbeq]
          exact ih

/-- C3: for every `SimulationResults` A and every operand x that is not a
`SimulationResults`, `A + x` and `A - x` raise the ValueError of the
results layer, and `A / x` raises it whenever x is neither a
`SimulationResults` nor an int; no coercion of the operand happens. -/
theorem results_ops_reject_foreign_operands (A : SimulationResults) (x : PyVal)
    (hx : ∀ r, x ≠ PyVal.results r) :
    A.add x = .error typeErrBoth ∧ A.sub x = .error typeErrBoth ∧
      ((∀ n, x ≠ PyVal.intVal n) → A.truediv x = .error typeErrDiv) := by
  cases x with
  | results r => exact absurd rfl (hx r)
  | intVal n => exact ⟨rfl, rfl, fun hn => absurd rfl (hn n)⟩
  | objVal => exact ⟨rfl, rfl, fun _ => rfl⟩

theorem results_ops_reject_foreign_operands_witness :
    wA1.add PyVal.objVal = .error typeErrBoth ∧
      wA1.sub PyVal.objVal = .error typeErrBoth ∧
      wA1.truediv PyVal.objVal = .error typeErrDiv := by
  have h := results_ops_reject_foreign_operands wA1 PyVal.objVal (fun r hr => by cases hr)
  exact ⟨h.1, h.2.1, h.2.2 (fun n hn => by cases hn)⟩

/-- C4: the binary elementwise operators between two result sets produce a
new object whose link and node dicts hold exactly the keys present in both
operands, each mapped to the elementwise combination of the two stored
series; keys missing on either side are skipped, not raised on. -/
theorem binary_ops_intersect_keys (A B : SimulationResults) :
    (∃ C, A.add (.results B) = .ok C ∧
      mergedDictSpec valAdd A.link B.link C.link ∧
      mergedDictSpec valAdd A.node B.node C.node) ∧
    (∃ C, A.sub (.results B) = .ok C ∧
      mergedDictSpec valSub A.link B.link C.link ∧
      mergedDictSpec valSub A.node B.node C.node) ∧
    (∃ C, A.truediv (.results B) = .ok C ∧
      mergedDictSpec valDiv A.link B.link C.link ∧
      mergedDictSpec valDiv A.node B.node C.node) := by
  refine ⟨⟨_, rfl, ?_, ?_⟩, ⟨_, rfl, ?_, ?_⟩, ⟨_, rfl, ?_, ?_⟩⟩ <;>
    exact fun k => lookup_dictInterCombine _ _ _ k

/-!
## Lemmas about the splice machinery
-/

theorem except_bind_ok {ε α β : Type} (a : α) (f : α → Except ε β) :
    (Except.ok a >>= f) = f a := rfl

theorem except_bind_error {ε α β : Type} (e : ε) (f : α → Except ε β) :
    ((Except.error e : Except ε α) >>= f) = Except.error e := rfl

theorem zip_mask_filterMap (s : Series) (f : Int → Bool) :
    (s.zip (s.map (fun tv => f tv.1))).filterMap
        (fun p => if p.2 then some p.1 else none) =
      s.filter (fun tv => f tv.1) := by
  induction s with
  | nil => rfl
  | cons tv tl ih =>
    simp only [List.map_cons, List.zip_cons_cons, List.filterMap_cons,
      List.filter_cons]
    cases hf : f tv.1 <;> simp [hf, ih]

/-- Applying the positional mask built from a series' own index filters the
rows by their time label. -/
theorem locMask_own_index (s : Series) (f : Int → Bool) :
    locMask s ((seriesIndex s).map f) = .ok (s.filter (fun tv => f tv.1)) := by
  have hm : (seriesIndex s).map f = s.map (fun tv => f tv.1) := by
    simp [seriesIndex, List.map_map, Function.comp]
  rw [hm]
  unfold locMask
  rw [if_pos (by simp), zip_mask_filterMap]

theorem seriesIndex_filter (s : Series) (f : Int → Bool) :
    seriesIndex (s.filter (fun tv => f tv.1)) = (seriesIndex s).filter f := by
  induction s with
  | nil => rfl
  | cons tv tl ih =>
    simp only [seriesIndex, List.filter_cons, List.map_cons] at ih ⊢
    cases hf : f tv.1 <;> simp [hf, ih]

/-- Key-by-key description of a successful first splice loop. -/
theorem mergeKeep_ok_lookup {keep : List Bool} {pk : String} {e : RDict} :
    ∀ {d d' : RDict}, mergeKeep keep pk d e = .ok d' →
      ∀ {k : String} {sa sb : Series}, List.lookup k d = some sa →
        List.lookup k e = some sb →
        ∃ pre, locMask sa keep = .ok pre ∧
          List.lookup k d' = some (pre ++ sb) := by
  intro d
  induction d with
  | nil =>
    intro d' h k sa sb hka hkb
    simp [List.lookup] at hka
  | cons kv tl ih =>
    intro d' h k sa sb hka hkb
    cases kv with
    | mk k1 s1 =>
      cases hle : List.lookup k1 e with
      | none =>
        simp only [mergeKeep, hle] at h
        cases hpk : List.lookup pk e <;> simp only [hpk] at h <;> cases h
      | some os =>
        simp only [mergeKeep, hle] at h
        cases hpre : locMask s1 keep with
        | error msg => rw [hpre, except_bind_error] at h; cases h
        | ok pre =>
          rw [hpre, except_bind_ok] at h
          cases hrest : mergeKeep keep pk tl e with
          | error msg => rw [hrest, except_bind_error] at h; cases h
          | ok rest =>
            rw [hrest, except_bind_ok] at h
            cases h
            rw [List.lookup_cons] at hka
            by_cases hk : k = k1
            · subst hk
              simp only [beq_self_eq_true] at hka
              cases hka
              rw [hle] at hkb
              cases hkb
              refine ⟨pre, hpre, ?_⟩
              rw [List.lookup_cons]
              simp only [beq_self_eq_true]
            · have hbeq : (k == k1) = false := beq_eq_false_iff_ne.mpr hk
              rw [hbeq] at hka
              obtain ⟨pre', h1, h2⟩ := ih hrest hka hkb
              refine ⟨pre', h1, ?_⟩
              rw [List.lookup_cons, hbeq]
              exact h2

/-- A successful second splice loop returns the dict unchanged: the branch
that would add a key raises, so success means no key was missing. -/
theorem addMissing_ok {pk : String} {d : RDict} :
    ∀ {o d' : RDict}, addMissing pk d o = .ok d' → d' = d := by
  intro o
  induction o with
  | nil => intro d' h; cases h; rfl
  | cons kv tl ih =>
    intro d' h
    simp only [addMissing] at h
    by_cases hs : (List.lookup kv.1 d).isSome
    · rw [if_pos hs] at h; exact ih h
    · rw [if_neg hs] at h
      cases hpk : List.lookup pk d <;> simp only [hpk] at h <;> cases h

theorem chain_lt_nodup {l : List Int} (h : List.Chain' (· < ·) l) :
    l.Nodup :=
  (List.chain'_iff_pairwise.mp h).imp (fun hlt => ne_of_lt hlt)

theorem chain_lt_head_le {l : List Int} {c : Int}
    (h : List.Chain' (· < ·) l) (hc : l.head? = some c) :
    ∀ t ∈ l, c ≤ t := by
  cases l with
  | nil => cases hc
  | cons x xs =>
    rw [List.head?_cons] at hc
    cases hc
    intro t ht
    rcases List.mem_cons.mp ht with rfl | ht'
    · exact le_refl t
    · exact le_of_lt (((List.pairwise_cons.mp
        (List.chain'_iff_pairwise.mp h)).1) t ht')

/-- C1: a successful `A.append_results_from(B)` on result sets whose series
all carry their object's (strictly increasing) head time index leaves, for
every key present in both objects, A's rows at times strictly below the
first timestamp of B's head series followed by all of B's rows, with no
duplicate timestamps. -/
theorem append_results_splice (A B A' : SimulationResults) (ah bh : Series)
    (cut : Int)
    (hah : List.lookup "head" A.node = some ah)
    (hbh : List.lookup "head" B.node = some bh)
    (hcut : (seriesIndex bh).head? = some cut)
    (hAidx : ∀ p ∈ A.link ++ A.node, seriesIndex p.2 = seriesIndex ah)
    (hBidx : ∀ p ∈ B.link ++ B.node, seriesIndex p.2 = seriesIndex bh)
    (hAsort : List.Chain' (· < ·) (seriesIndex ah))
    (hBsort : List.Chain' (· < ·) (seriesIndex bh))
    (hok : A.append_results_from (.results B) = .ok A') :
    SpliceSpec cut A.link B.link A'.link ∧
      SpliceSpec cut A.node B.node A'.node := by
  simp only [SimulationResults.append_results_from, hbh, hcut, hah] at hok
  cases hm1 : mergeKeep ((seriesIndex ah).map (fun t => decide (t < cut)))
      "flowrate" A.link B.link with
  | error msg => rw [hm1, except_bind_error] at hok; cases hok
  | ok link1 =>
  rw [hm1, except_bind_ok] at hok
  cases ha1 : addMissing "flowrate" link1 B.link with
  | error msg => rw [ha1, except_bind_error] at hok; cases hok
  | ok link2 =>
  rw [ha1, except_bind_ok] at hok
  cases hm2 : mergeKeep ((seriesIndex ah).map (fun t => decide (t < cut)))
      "head" A.node B.node with
  | error msg => rw [hm2, except_bind_error] at hok; cases hok
  | ok node1 =>
  rw [hm2, except_bind_ok] at hok
  cases ha2 : addMissing "head" node1 B.node with
  | error msg => rw [ha2, except_bind_error] at hok; cases hok
  | ok node2 =>
  rw [ha2, except_bind_ok] at hok
  cases hok
  obtain rfl := addMissing_ok ha1
  obtain rfl := addMissing_ok ha2
  have main : ∀ (dA dB d1 : RDict),
      mergeKeep ((seriesIndex ah).map (fun t => decide (t < cut))) "flowrate"
          dA dB = .ok d1 ∨
        mergeKeep ((seriesIndex ah).map (fun t => decide (t < cut))) "head"
          dA dB = .ok d1 →
      (∀ p ∈ dA, seriesIndex p.2 = seriesIndex ah) →
      (∀ p ∈ dB, seriesIndex p.2 = seriesIndex bh) →
      SpliceSpec cut dA dB d1 := by
    intro dA dB d1 hmerge hA hB k sa sb hka hkb
    have hsaidx : seriesIndex sa = seriesIndex ah := hA _ (lookup_mem hka)
    have hsbidx : seriesIndex sb = seriesIndex bh := hB _ (lookup_mem hkb)
    have hloc : locMask sa ((seriesIndex ah).map (fun t => decide (t < cut)))
        = .ok (sa.filter (fun tv => decide (tv.1 < cut))) := by
      rw [← hsaidx]
      exact locMask_own_index sa (fun t => decide (t < cut))
    have hfound : ∃ pre,
        locMask sa ((seriesIndex ah).map (fun t => decide (t < cut))) = .ok pre ∧
          List.lookup k d1 = some (pre ++ sb) := by
      rcases hmerge with hm | hm
      · exact mergeKeep_ok_lookup hm hka hkb
      · exact mergeKeep_ok_lookup hm hka hkb
    obtain ⟨pre, hpre, hlook⟩ := hfound
    rw [hloc] at hpre
    cases hpre
    refine ⟨hlook, ?_⟩
    have hsorted_sa : List.Chain' (· < ·) (seriesIndex sa) := by
      rw [hsaidx]; exact hAsort
    have hsorted_sb : List.Chain' (· < ·) (seriesIndex sb) := by
      rw [hsbidx]; exact hBsort
    have h1 := seriesIndex_filter sa (fun t => decide (t < cut))
    have hidx : seriesIndex (sa.filter (fun tv => decide (tv.1 < cut)) ++ sb)
        = ((seriesIndex sa).filter (fun t => decide (t < cut))) ++
            seriesIndex sb := by
      simp only [seriesIndex] at h1 ⊢
      rw [List.map_append, h1]
    rw [hidx, List.nodup_append]
    refine ⟨(chain_lt_nodup hsorted_sa).filter _,
      chain_lt_nodup hsorted_sb, ?_⟩
    intro t htA htB
    have htlt : t < cut := by
      have := (List.mem_filter.mp htA).2
      simpa using this
    have htge : cut ≤ t := by
      have hmem : t ∈ seriesIndex bh := by rw [← hsbidx]; exact htB
      exact chain_lt_head_le hBsort hcut t hmem
    exact absurd htlt (not_lt.mpr htge)
  exact ⟨main A.link B.link _ (Or.inl hm1) (fun p hp => hAidx p (List.mem_append_left _ hp))
      (fun p hp => hBidx p (List.mem_append_left _ hp)),
    main A.node B.node _ (Or.inr hm2) (fun p hp => hAidx p (List.mem_append_right _ hp))
      (fun p hp => hBidx p (List.mem_append_right _ hp))⟩

theorem append_results_splice_witness :
    List.lookup "flowrate" wAB1.link =
        some ((([(0, some 1), (25, some 2), (50, some 3), (75, some 4)] :
          Series).filter (fun tv => decide (tv.1 < 50))) ++
            [(50, some 5), (100, some 6)]) ∧
      (seriesIndex ((([(0, some 1), (25, some 2), (50, some 3), (75, some 4)] :
          Series).filter (fun tv => decide (tv.1 < 50))) ++
            [(50, some 5), (100, some 6)])).Nodup :=
  (append_results_splice wA1 wB1 wAB1
      [(0, some 10), (25, some 11), (50, some 12), (75, some 13)]
      [(50, some 20), (100, some 21)] 50 rfl rfl rfl
      (by decide) (by decide)
      (by norm_num [seriesIndex, List.chain'_cons, List.chain'_singleton])
      (by norm_num [seriesIndex, List.chain'_cons, List.chain'_singleton])
      rfl).1
    "flowrate" _ _ rfl rfl

/-- C10: `append_results_from` reads `other.node['head']` (for the cut
time) and then `self.node['head']` (for the kept-rows mask) before any
merging, so the call fails with a `KeyError` when either `head` entry is
absent. -/
theorem append_requires_head_key (A B : SimulationResults) :
    (List.lookup "head" B.node = none →
      A.append_results_from (.results B) = .error (keyError "head")) ∧
    (∀ bh cut, List.lookup "head" B.node = some bh →
      (seriesIndex bh).head? = some cut →
      List.lookup "head" A.node = none →
      A.append_results_from (.results B) = .error (keyError "head")) := by
  constructor
  · intro h
    simp [SimulationResults.append_results_from, h]
  · intro bh cut h1 h2 h3
    simp [SimulationResults.append_results_from, h1, h2, h3]

theorem append_requires_head_key_witness :
    wA1.append_results_from (.results wNoHead) = .error (keyError "head") ∧
      wNoHead.append_results_from (.results wB1) = .error (keyError "head") :=
  ⟨(append_requires_head_key wA1 wNoHead).1 rfl,
    (append_requires_head_key wNoHead wB1).2
      [(50, some 20), (100, some 21)] 50 rfl rfl rfl⟩

/-- C2 (code bug): when a key is present on one side only,
`append_results_from` evaluates `pd.nan` to build the "undefined"
placeholder, and the pandas module has no attribute `nan` (the intent was
clearly numpy's `np.nan`: numpy is imported as `np` at the top of
`src/wntr/sim/results.py`).  The call therefore raises `AttributeError`
instead of filling the unmatched key and completing: here for an extra
`velocity` series on the calling object and on the other object. -/
theorem append_placeholder_raises :
    wA2.append_results_from (.results wB1) = .error pdNanError ∧
      wA1.append_results_from (.results wB2) = .error pdNanError :=
  ⟨rfl, rfl⟩

/-!
## Lemmas about the network model
-/

theorem add_pipe_ok_elim {wn : WaterNetworkModel} {name s e : String}
    {len dia rough ml : PyNum} {st : String} {wn' : WaterNetworkModel}
    (h : add_pipe wn name s e len dia rough ml st = .ok wn') :
    List.lookup name wn.links = none ∧
      wn' = { wn with
        links := wn.links ++ [(name, .pipe ⟨name, s, e, len.toFloat,
          dia.toFloat, rough.toFloat, ml.toFloat, strUpper st⟩)],
        num_pipes := wn.num_pipes + 1,
        check_valves := if strUpper st = "CV" then wn.check_valves ++ [name]
          else wn.check_valves
        graph_edges := wn.graph_edges ++ [(s, e, name)] } := by
  simp only [add_pipe] at h
  by_cases hdup : (List.lookup name wn.links).isSome
  · rw [if_pos hdup] at h; cases h
  · rw [if_neg hdup] at h
    cases h
    exact ⟨Option.not_isSome_iff_eq_none.mp hdup, rfl⟩

theorem remove_pipe_ok_elim {wn : WaterNetworkModel} {name : String}
    {wn' : WaterNetworkModel} (h : remove_pipe wn name = .ok wn') :
    wn' = { wn with
      links := wn.links.filter (fun kv => kv.1 ≠ name),
      num_pipes := wn.num_pipes - 1,
      check_valves := wn.check_valves.filter (fun n => n ≠ name),
      graph_edges := wn.graph_edges.filter (fun e => e.2.2 ≠ name) } := by
  simp only [remove_pipe] at h
  cases hl : List.lookup name wn.links with
  | none => simp only [hl] at h; cases h
  | some l =>
    cases l with
    | pipe p => simp only [hl] at h; cases h; rfl
    | pump p => simp only [hl] at h; cases h
    | valve v => simp only [hl] at h; cases h

theorem cvPipeNames_append (l1 l2 : List (String × NetLink)) :
    cvPipeNames (l1 ++ l2) = cvPipeNames l1 ++ cvPipeNames l2 := by
  simp [cvPipeNames, List.filterMap_append]

theorem filterMap_key_filter {β : Type} (g : String × β → Option String)
    (hg : ∀ kv x, g kv = some x → x = kv.1) (name : String)
    (l : List (String × β)) :
    List.filterMap g (l.filter (fun kv => kv.1 ≠ name)) =
      (List.filterMap g l).filter (fun n => n ≠ name) := by
  induction l with
  | nil => rfl
  | cons kv tl ih =>
    rw [List.filter_cons]
    by_cases hk : kv.1 = name
    · rw [if_neg (by simp [hk])]
      rw [List.filterMap_cons]
      cases hgv : g kv with
      | none => exact ih
      | some x =>
        have hx : x = kv.1 := hg _ _ hgv
        rw [List.filter_cons, if_neg (by simp [hx, hk])]
        exact ih
    · rw [if_pos (by simp [hk])]
      rw [List.filterMap_cons, List.filterMap_cons]
      cases hgv : g kv with
      | none => exact ih
      | some x =>
        have hx : x = kv.1 := hg _ _ hgv
        rw [List.filter_cons, if_pos (by simp [hx, hk])]
        rw [ih]

theorem cvPipeNames_filter_key (links : List (String × NetLink))
    (name : String) :
    cvPipeNames (links.filter (fun kv => kv.1 ≠ name)) =
      (cvPipeNames links).filter (fun n => n ≠ name) := by
  have hg : ∀ (kv : String × NetLink) (x : String),
      (match kv.2 with
        | NetLink.pipe p => if p.base_status = "CV" then some kv.1 else none
        | _ => none) = some x → x = kv.1 := by
    intro kv x h
    rcases kv with ⟨k, l⟩
    cases l with
    | pipe p =>
      dsimp only at h
      by_cases hcv : p.base_status = "CV"
      · rw [if_pos hcv] at h; cases h; rfl
      · rw [if_neg hcv] at h; cases h
    | pump p => cases h
    | valve v => cases h
  exact filterMap_key_filter _ hg name links

/-- C7: a valid `add_pipe` with a status that upper-cases to CV puts the
pipe name in the check-valve set; after `remove_pipe` it is absent; and the
check-valve set always equals exactly the set of registered pipe names with
status CV: it does so on the empty model and is preserved by every
mutating operation of the model. -/
theorem check_valve_set_spec (wn : WaterNetworkModel) :
    (∀ name s e len dia rough ml st wn', strUpper st = "CV" →
        add_pipe wn name s e len dia rough ml st = .ok wn' →
        name ∈ wn'.check_valves) ∧
    (∀ name wn', remove_pipe wn name = .ok wn' →
        name ∉ wn'.check_valves) ∧
    CheckValveInv emptyWNM ∧
    (CheckValveInv wn →
      (∀ name d p el wn', add_junction wn name d p el = .ok wn' →
          CheckValveInv wn') ∧
      (∀ name s e len dia rough ml st wn',
          add_pipe wn name s e len dia rough ml st = .ok wn' →
          CheckValveInv wn') ∧
      (∀ name s e ci curve wn', add_pump wn name s e ci curve = .ok wn' →
          CheckValveInv wn') ∧
      (∀ name wn', remove_pipe wn name = .ok wn' → CheckValveInv wn')) := by
  refine ⟨?_, ?_, rfl, fun hinv => ⟨?_, ?_, ?_, ?_⟩⟩
  · intro name s e len dia rough ml st wn' hcv hok
    obtain ⟨-, rfl⟩ := add_pipe_ok_elim hok
    show name ∈ (if strUpper st = "CV" then wn.check_valves ++ [name]
      else wn.check_valves)
    rw [if_pos hcv]
    exact List.mem_append_right _ (List.mem_singleton.mpr rfl)
  · intro name wn' hok
    obtain rfl := remove_pipe_ok_elim hok
    simp
  · intro name d p el wn' hok
    simp only [add_junction] at hok
    by_cases hdup : (List.lookup name wn.nodes).isSome
    · rw [if_pos hdup] at hok; cases hok
    · rw [if_neg hdup] at hok
      cases hok
      exact hinv
  · intro name s e len dia rough ml st wn' hok
    obtain ⟨-, rfl⟩ := add_pipe_ok_elim hok
    show (if strUpper st = "CV" then wn.check_valves ++ [name]
      else wn.check_valves) = cvPipeNames (wn.links ++ [_])
    rw [cvPipeNames_append]
    by_cases hcv : strUpper st = "CV"
    · rw [if_pos hcv, hinv]
      simp [cvPipeNames, List.filterMap_cons, hcv]
    · rw [if_neg hcv, hinv]
      simp [cvPipeNames, List.filterMap_cons, hcv]
  · intro name s e ci curve wn' hok
    simp only [add_pump] at hok
    by_cases hdup : (List.lookup name wn.links).isSome
    · rw [if_pos hdup] at hok; cases hok
    · rw [if_neg hdup] at hok
      have hpump : ∀ co : Option (ℚ × ℚ × ℚ), CheckValveInv { wn with
          links := wn.links ++ [(name, .pump ⟨name, s, e, curve.name, co⟩)],
          num_pumps := wn.num_pumps + 1,
          graph_edges := wn.graph_edges ++ [(s, e, name)] } := by
        intro co
        show wn.check_valves = cvPipeNames (wn.links ++ [_])
        rw [cvPipeNames_append, hinv]
        simp [cvPipeNames, List.filterMap_cons]
      split at hok
      · split at hok
        · cases hok; exact hpump _
        · cases hok; exact hpump _
        · cases hok
      · cases hok; exact hpump _
  · intro name wn' hok
    obtain rfl := remove_pipe_ok_elim hok
    show wn.check_valves.filter (fun n => n ≠ name) = _
    rw [hinv, cvPipeNames_filter_key]

theorem check_valve_set_spec_witness :
    "p1" ∈ wnP1.check_valves ∧ "p1" ∉ wnJ2.check_valves :=
  ⟨(check_valve_set_spec wnJ2).1 "p1" "j1" "j2" (.intNum 1000) (.intNum 1)
      (.intNum 100) (.intNum 0) "cv" wnP1 (by decide) rfl,
    (check_valve_set_spec wnP1).2.1 "p1" wnJ2 rfl⟩

/-- C8: a valid `add_junction(name, demand, pattern, elevation)` makes
`get_node(name)` return a junction carrying exactly the supplied
attributes with the numeric ones coerced to floating point, and puts
`name` into the topology graph as an isolated vertex with no incident
edges (on a model whose edges all join registered nodes). -/
theorem add_junction_spec (wn wn' : WaterNetworkModel) (name : String)
    (demand elevation : PyNum) (pattern : Option String)
    (hcons : GraphNodesConsistent wn)
    (hok : add_junction wn name demand pattern elevation = .ok wn') :
    get_node wn' name = .ok (.junction
      { name := name, base_demand := demand.toFloat,
        demand_pattern_name := pattern, elevation := elevation.toFloat }) ∧
      name ∈ wn'.graph_node_list ∧ get_links_for_node wn' name = [] := by
  simp only [add_junction] at hok
  by_cases hdup : (List.lookup name wn.nodes).isSome
  · rw [if_pos hdup] at hok; cases hok
  · rw [if_neg hdup] at hok
    cases hok
    have hnone : List.lookup name wn.nodes = none :=
      Option.not_isSome_iff_eq_none.mp hdup
    refine ⟨?_, ?_, ?_⟩
    · simp only [get_node]
      rw [lookup_append_of_none hnone]
      simp [List.lookup]
    · exact List.mem_append_right _ (List.mem_singleton.mpr rfl)
    · simp only [get_links_for_node]
      refine List.filterMap_eq_nil.mpr (fun e he => ?_)
      obtain ⟨h1, h2⟩ := hcons e he
      have hne : ¬(e.1 = name ∨ e.2.1 = name) := by
        rintro (h | h)
        · rw [h, hnone] at h1; simp at h1
        · rw [h, hnone] at h2; simp at h2
      rw [if_neg hne]

theorem add_junction_spec_witness :
    get_node wnJ1 "j1" = .ok (.junction
      { name := "j1", base_demand := (PyNum.intNum 150).toFloat,
        demand_pattern_name := some "pattern1",
        elevation := (PyNum.intNum 15).toFloat }) ∧
      "j1" ∈ wnJ1.graph_node_list ∧ get_links_for_node wnJ1 "j1" = [] :=
  add_junction_spec emptyWNM wnJ1 "j1" (.intNum 150) (.intNum 15)
    (some "pattern1") (by intro e he; cases he) rfl

/-- C9: on a model whose topology graph mirrors the link registry,
`get_links_for_node(name)` returns exactly the names of the links having
`name` as start node or as end node, regardless of the stored edge
direction. -/
theorem get_links_for_node_adjacency (wn : WaterNetworkModel) (n : String)
    (hinv : GraphLinksConsistent wn) (l : String) :
    l ∈ get_links_for_node wn n ↔
      ∃ lk, (l, lk) ∈ wn.links ∧
        (lk.start_node = n ∨ lk.end_node = n) := by
  unfold get_links_for_node
  rw [hinv, List.filterMap_map, List.mem_filterMap]
  constructor
  · rintro ⟨kv, hmem, heq⟩
    simp only [Function.comp] at heq
    by_cases hc : kv.2.start_node = n ∨ kv.2.end_node = n
    · rw [if_pos hc] at heq
      cases heq
      exact ⟨kv.2, by simpa using hmem, hc⟩
    · rw [if_neg hc] at heq
      cases heq
  · rintro ⟨lk, hmem, hc⟩
    refine ⟨(l, lk), hmem, ?_⟩
    simp only [Function.comp]
    rw [if_pos hc]

theorem get_links_for_node_adjacency_witness :
    "p1" ∈ get_links_for_node wn9 "j1" :=
  (get_links_for_node_adjacency wn9 "j1" rfl "p1").mpr
    ⟨.pipe ⟨"p1", "j1", "j2", ⟨0⟩, ⟨0⟩, ⟨0⟩, ⟨0⟩, "OPEN"⟩,
      by decide, Or.inl rfl⟩

/-- C5: attaching a single-point HEAD curve (q₂, h₂) with q₂ > 0, h₂ > 0
to a pump via `add_pump` stores solved coefficients (a, b, c) that satisfy
all three synthesized residual equations `hᵢ − a + b·qᵢᶜ = 0` exactly (so
in particular within the 1e-6 tolerance), for the synthesized points
(0, 4/3·h₂), (q₂, h₂) and (2·q₂, 0). -/
theorem head_curve_1pt_residuals (q2 h2 : ℚ) (hq : 0 < q2) (hh : 0 < h2)
    (wn wn' : WaterNetworkModel) (name s e : String) (curve : Curve)
    (hpts : curve.points = [(q2, h2)])
    (hok : add_pump wn name s e "HEAD" curve = .ok wn') :
    get_link wn' name = .ok (.pump
      { link_name := name, start_node := s, end_node := e,
        curve_name := curve.name,
        coeffs := some (solve1ptHeadCurve q2 h2) }) ∧
      headResidual (solve1ptHeadCurve q2 h2).1 (solve1ptHeadCurve q2 h2).2.1
        (solve1ptHeadCurve q2 h2).2.2 (4 / 3 * h2) 0 = some 0 ∧
      headResidual (solve1ptHeadCurve q2 h2).1 (solve1ptHeadCurve q2 h2).2.1
        (solve1ptHeadCurve q2 h2).2.2 h2 q2 = some 0 ∧
      headResidual (solve1ptHeadCurve q2 h2).1 (solve1ptHeadCurve q2 h2).2.1
        (solve1ptHeadCurve q2 h2).2.2 0 (2 * q2) = some 0 := by
  have hq' : q2 ≠ 0 := ne_of_gt hq
  simp only [add_pump, hpts] at hok
  by_cases hdup : (List.lookup name wn.links).isSome
  · rw [if_pos hdup] at hok; cases hok
  · rw [if_neg hdup] at hok
    rw [if_pos trivial] at hok
    cases hok
    have hnone : List.lookup name wn.links = none :=
      Option.not_isSome_iff_eq_none.mp hdup
    refine ⟨?_, ?_, ?_, ?_⟩
    · simp only [get_link]
      rw [lookup_append_of_none hnone]
      simp [List.lookup]
    · show headResidual (4 / 3 * h2) ((4 / 3 * h2 - h2) / q2 ^ 2) 2
        (4 / 3 * h2) 0 = some 0
      unfold headResidual
      rw [if_pos ⟨rfl, by norm_num⟩]
      simp only [show ((2 : ℚ).num.toNat) = 2 from rfl]
      congr 1
      ring
    · show headResidual (4 / 3 * h2) ((4 / 3 * h2 - h2) / q2 ^ 2) 2
        h2 q2 = some 0
      unfold headResidual
      rw [if_pos ⟨rfl, by norm_num⟩]
      simp only [show ((2 : ℚ).num.toNat) = 2 from rfl]
      congr 1
      field_simp
      ring
    · show headResidual (4 / 3 * h2) ((4 / 3 * h2 - h2) / q2 ^ 2) 2
        0 (2 * q2) = some 0
      unfold headResidual
      rw [if_pos ⟨rfl, by norm_num⟩]
      simp only [show ((2 : ℚ).num.toNat) = 2 from rfl]
      congr 1
      field_simp
      ring

theorem head_curve_1pt_residuals_witness :
    get_link wn5 "p1" = .ok (.pump
      { link_name := "p1", start_node := "j1", end_node := "j2",
        curve_name := "curve1",
        coeffs := some (solve1ptHeadCurve 10 20) }) ∧
      headResidual (solve1ptHeadCurve 10 20).1 (solve1ptHeadCurve 10 20).2.1
        (solve1ptHeadCurve 10 20).2.2 (4 / 3 * 20) 0 = some 0 ∧
      headResidual (solve1ptHeadCurve 10 20).1 (solve1ptHeadCurve 10 20).2.1
        (solve1ptHeadCurve 10 20).2.2 20 10 = some 0 ∧
      headResidual (solve1ptHeadCurve 10 20).1 (solve1ptHeadCurve 10 20).2.1
        (solve1ptHeadCurve 10 20).2.2 0 (2 * 10) = some 0 :=
  head_curve_1pt_residuals 10 20 (by norm_num) (by norm_num) wnJ2 wn5
    "p1" "j1" "j2" curve1pt rfl rfl

end WntrSpec
